import Mathlib

/-!
Verification of the OpenTMK multi-VP / multi-VTL test framework.

This file gives a shallow embedding of the parts of the `opentmk` crate that
the specification's claims talk about, and proves (or refutes) each claim
against that embedding.  The embedding follows the Rust source:

* `src/opentmk/src/uefi/hypvctx.rs` — the per-VP command queue and the VP
  worker loop (`HvTestCtx::exec_handler`, `queue_command_vp`, `start_on_vp`);
* `src/opentmk/src/uefi/hypercall.rs` — the `HvCall` state machine and the
  typed hypercall wrappers (`apply_vtl2_protections`, `enable_vp_vtl`,
  `enable_partition_vtl`, `low_vtl`);
* `src/opentmk/src/sync.rs` — the bounded `Channel` with `send` /
  `send_priority`;
* `src/opentmk/src/uefi/alloc.rs` — the two-mode global `MemoryAllocator`;
* `src/opentmk/src/slog.rs` and `src/opentmk/src/tmk_logger.rs` — the JSON
  log-record shapes.

Hypervisor responses are modelled as oracles (functions from the call index
or request to a status code), since the hypervisor itself is an external
collaborator of the program.
-/

namespace OpenTMK

/-- Virtual trust levels, mirroring the `hvdef::Vtl` enumeration. -/
inductive Vtl where
  | Vtl0
  | Vtl1
  | Vtl2
deriving DecidableEq, Repr

/-- A queued command: the closure body is identified by a numeric id (bodies
are one-shot boxed closures in the source and are only moved around, never
inspected), together with its target VTL.  This mirrors the entries of
`ComandTable` in `hypvctx.rs`: `(Box<dyn FnOnce(&mut dyn TestCtxTrait)>, Vtl)`. -/
structure Cmd where
  id : Nat
  vtl : Vtl
deriving DecidableEq, Repr

/-- Outcome of one iteration of the worker loop body in
`HvTestCtx::exec_handler` (hypvctx.rs lines 336-368): the queue afterwards,
the command popped for execution (if any), and the VTL switched to (if any).
In the source these are the local variables `cmd` and `vtl` at the end of the
lock block; at most one of them is `Some`. -/
structure StepOut where
  queue : List Cmd
  exec : Option Cmd
  switch : Option Vtl
deriving DecidableEq, Repr

/-- One iteration of the loop body of `HvTestCtx::exec_handler` for a worker
whose cached current VTL is `cur` (`ctx.hvcall.vtl`; it is fixed for the
lifetime of the worker) and whose VP queue currently holds `q`.  The source
looks at the front of the queue; if its target VTL equals the current VTL it
pops it and runs it, otherwise it leaves the queue untouched and issues a VTL
switch towards the front command's VTL. -/
def execHandlerStep (q : List Cmd) (cur : Vtl) : StepOut :=
  match q with
  | [] => ⟨[], none, none⟩
  | c :: rest =>
    if c.vtl = cur then ⟨rest, some c, none⟩
    else ⟨c :: rest, none, some c.vtl⟩

/-- Events acting on one VP's command queue: an enqueue (`push_back`, as done
by `queue_command_vp` and `start_on_vp` in hypvctx.rs) or one worker-loop
iteration by the worker of VTL `v` on this VP. -/
inductive BusEvent where
  | enq (c : Cmd)
  | work (v : Vtl)
deriving DecidableEq, Repr

/-- History-carrying state of one VP's command queue: the live queue, the
sequence of commands executed so far (in execution order), and the sequence
of commands enqueued so far (in enqueue order). -/
structure BusState where
  queue : List Cmd
  execs : List Cmd
  enqs : List Cmd
deriving DecidableEq, Repr

/-- Transition of one VP's queue under an event.  Enqueues append at the
back (`push_back`); a worker iteration behaves exactly as
`execHandlerStep` and records the executed command, if any. -/
def busStep (s : BusState) (e : BusEvent) : BusState :=
  match e with
  | .enq c => ⟨s.queue ++ [c], s.execs, s.enqs ++ [c]⟩
  | .work v =>
    let out := execHandlerStep s.queue v
    ⟨out.queue, s.execs ++ out.exec.toList, s.enqs⟩

/-- Run a sequence of events from the empty queue (the state just after
`register_command_queue`). -/
def busRun (es : List BusEvent) : BusState :=
  es.foldl busStep ⟨[], [], []⟩

/-- A hypervisor status code other than `HV_STATUS_SUCCESS`, mirroring
`hvdef::HvError` (a nonzero 16-bit status). -/
structure HvError where
  code : Nat
deriving DecidableEq, Repr

/-- `HvError::VtlAlreadyEnabled` (HV_STATUS_VTL_ALREADY_ENABLED = 0x86). -/
def HvError.vtlAlreadyEnabled : HvError := ⟨0x86⟩

/-- `HypercallOutput::result()`: status 0 is success, anything else is the
corresponding `HvError`. -/
def hvResult (status : Nat) : Except HvError Unit :=
  if status = 0 then .ok () else .error ⟨status⟩

/-- Result mapping of `HvCall::enable_vp_vtl` (hypercall.rs lines 319-322):
`Ok(()) | Err(VtlAlreadyEnabled) => Ok(())`, any other error is returned
unchanged.  `status` is the status code the hypervisor returned for the
`HvCallEnableVpVtl` hypercall. -/
def enable_vp_vtl_result (status : Nat) : Except HvError Unit :=
  match hvResult status with
  | .ok () => .ok ()
  | .error e => if e = HvError.vtlAlreadyEnabled then .ok () else .error e

/-- Result mapping of `HvCall::enable_partition_vtl` (hypercall.rs lines
362-365), identical to the `enable_vp_vtl` mapping. -/
def enable_partition_vtl_result (status : Nat) : Except HvError Unit :=
  match hvResult status with
  | .ok () => .ok ()
  | .error e => if e = HvError.vtlAlreadyEnabled then .ok () else .error e

/-- The mutable state of the `HvCall` singleton (hypercall.rs lines 64-67):
whether `crate::arch::hypercall` has been initialized with a guest OS id,
and the cached current VTL. -/
structure HvCallState where
  inited : Bool
  vtl : Vtl
deriving DecidableEq, Repr

/-- `TryInto<Vtl> for u8`: 0, 1, 2 map to the three VTLs, anything else
fails (the source calls `.unwrap()` on the result, a panic). -/
def vtlOfNat? (n : Nat) : Option Vtl :=
  match n with
  | 0 => some Vtl.Vtl0
  | 1 => some Vtl.Vtl1
  | 2 => some Vtl.Vtl2
  | _ => none

/-- `HvRegisterVsmVpStatus::active_vtl()`: the low 4 bits of the register
value. -/
def activeVtlOf (status : Nat) : Nat := status % 16

/-- `HvCall::initialize` (hypercall.rs lines 103-119) as a state
transformer.  `vsmStatus` is the outcome of the `VsmVpStatus` register read.
The source first runs `assert!(!self.initialized)` — calling it on an
already-initialized handle panics, modelled as `none`.  Otherwise the guest
OS id is registered, `initialized` is set, and the cached VTL becomes: the
active VTL reported by `VsmVpStatus` on success (`try_into().unwrap()`,
`none` when the field is not a valid VTL), and `Vtl0` via `map_or` when the
register read failed. -/
def initHvCall (s : HvCallState) (vsmStatus : Except HvError Nat) :
    Option HvCallState :=
  if s.inited then none
  else
    match vsmStatus with
    | .error _ => some ⟨true, Vtl.Vtl0⟩
    | .ok st => (vtlOfNat? (activeVtlOf st)).map fun v => ⟨true, v⟩

/-- `HvCall::uninitialize` (hypercall.rs lines 122-127): clears the guest OS
id and the `initialized` flag when initialized, and is a no-op otherwise. -/
def uninitHvCall (s : HvCallState) : HvCallState :=
  if s.inited then ⟨false, s.vtl⟩ else s

/-- `HvCall::vtl` (hypercall.rs lines 130-133): asserts `initialized`
(`none` models the panic) and returns the cached VTL. -/
def vtlOf (s : HvCallState) : Option Vtl :=
  if s.inited then some s.vtl else none

/-- Zeroing pass over the hypercall input page: `buffer.fill(0u8)`. -/
def fillZero (page : List Nat) : List Nat := page.map fun _ => 0

/-- The content of the shared hypercall input page at the moment
`HvCall::low_vtl` (hypercall.rs lines 291-304) issues the `HvCallVtlReturn`
hypercall: the source fills the buffer with zero (twice) before invoking
the hypercall, for whatever content `page` it held before. -/
def low_vtl_input_page (page : List Nat) : List Nat := fillZero (fillZero page)

/-- `hvdef::HvInputVtl`: a target-VTL byte with a use flag. -/
structure HvInputVtl where
  target_vtl_value : Nat
  use_target_vtl : Bool
deriving DecidableEq, Repr

/-- `HvInputVtl::CURRENT_VTL`: target the caller's current VTL. -/
def HvInputVtl.CURRENT_VTL : HvInputVtl := ⟨0, false⟩

/-- `hvdef::HV_PARTITION_ID_SELF` (u64::MAX). -/
def HV_PARTITION_ID_SELF : Nat := 0xffffffffffffffff

/-- `hvdef::HV_MAP_GPA_PERMISSIONS_NONE`: no access permissions. -/
def HV_MAP_GPA_PERMISSIONS_NONE : Nat := 0

/-- `hvdef::HV_PAGE_SIZE` in bytes. -/
def HV_PAGE_SIZE : Nat := 4096

/-- The fixed-size header of the `ModifyVtlProtectionMask` hypercall input:
partition id (u64), map flags (u32), target VTL (u8), 3 reserved bytes. -/
structure ModifyVtlProtectionMask where
  partition_id : Nat
  map_flags : Nat
  target_vtl : HvInputVtl
deriving DecidableEq, Repr

/-- Byte size of `hvdef::hypercall::ModifyVtlProtectionMask`:
8 (partition_id) + 4 (map_flags) + 1 (target_vtl) + 3 (reserved). -/
def MODIFY_VTL_HEADER_SIZE : Nat := 16

/-- `MAX_INPUT_ELEMENTS` in `HvCall::apply_vtl2_protections` (hypercall.rs
line 217): how many u64 page numbers fit in the input page after the
header. -/
def MAX_INPUT_ELEMENTS : Nat := (HV_PAGE_SIZE - MODIFY_VTL_HEADER_SIZE) / 8

/-- The header `apply_vtl2_protections` writes for every batch
(hypercall.rs lines 219-224). -/
def vtlProtectionHeader : ModifyVtlProtectionMask :=
  ⟨HV_PARTITION_ID_SELF, HV_MAP_GPA_PERMISSIONS_NONE, HvInputVtl.CURRENT_VTL⟩

/-- One rep hypercall issued by `apply_vtl2_protections`: its header, the
page numbers written after the header, and the rep count passed in the
control word. -/
structure RepBatch where
  header : ModifyVtlProtectionMask
  pages : List Nat
  rep_count : Nat
deriving DecidableEq, Repr

/-- The batching loop of `HvCall::apply_vtl2_protections` (hypercall.rs
lines 226-248).  `oracle k` is the status code the hypervisor returns for
the k-th issued batch.  `fuel` bounds the recursion; one unit is consumed
per batch and each batch covers at least one page, so `endGpn - current`
units always suffice.  Returns the batches actually issued, in order, and
the overall result: on a nonzero status the error is returned immediately
(`output.result()?`) and no further batch is issued. -/
def applyGo (oracle : Nat → Nat) (endGpn current k fuel : Nat) :
    List RepBatch × Except HvError Unit :=
  match fuel with
  | 0 => ([], .ok ())
  | fuel + 1 =>
    if current < endGpn then
      let count := min (endGpn - current) MAX_INPUT_ELEMENTS
      let b : RepBatch := ⟨vtlProtectionHeader, List.range' current count, count⟩
      let st := oracle k
      if st = 0 then
        let r := applyGo oracle endGpn (current + count) (k + 1) fuel
        (b :: r.1, r.2)
      else
        ([b], .error ⟨st⟩)
    else ([], .ok ())

/-- `HvCall::apply_vtl2_protections` over the 4 KiB page range
`[startGpn, endGpn)` (`range.start_4k_gpn()` to `range.end_4k_gpn()`),
against a hypervisor returning status `oracle k` for the k-th batch. -/
def apply_vtl2_protections (oracle : Nat → Nat) (startGpn endGpn : Nat) :
    List RepBatch × Except HvError Unit :=
  applyGo oracle endGpn startGpn 0 (endGpn - startGpn)

/-- The bounded MPMC channel of sync.rs (lines 210-315): a deque plus a
declared capacity. -/
structure Channel (T : Type) where
  buffer : List T
  capacity : Nat
deriving DecidableEq, Repr

/-- `Channel::send` (sync.rs lines 281-288): fails when the buffer already
holds at least `capacity` items, otherwise pushes at the back. -/
def Channel.send (c : Channel T) (item : T) : Except String (Channel T) :=
  if c.capacity ≤ c.buffer.length then .error "Buffer is full"
  else .ok ⟨c.buffer ++ [item], c.capacity⟩

/-- `Channel::send_priority` (sync.rs lines 290-294): pushes at the front
(`Deque::push_front` is `data.insert(0, value)`) with no capacity check. -/
def Channel.send_priority (c : Channel T) (item : T) : Except String (Channel T) :=
  .ok ⟨item :: c.buffer, c.capacity⟩

/-- Which backing allocator a call is routed to. -/
inductive Backend where
  | uefi
  | lockedHeap
deriving DecidableEq, Repr

/-- `SIZE_1MB` from alloc.rs. -/
def SIZE_1MB : Nat := 1024 * 1024

/-- The observable state of `MemoryAllocator` (alloc.rs): the
`use_locked_heap` mode flag. -/
structure MemoryAllocator where
  use_locked_heap : Bool
deriving DecidableEq, Repr

/-- Routing of `GlobalAlloc::alloc` (alloc.rs lines 26-32). -/
def MemoryAllocator.allocBackend (a : MemoryAllocator) : Backend :=
  if a.use_locked_heap then .lockedHeap else .uefi

/-- Routing of `GlobalAlloc::dealloc` (alloc.rs lines 34-40). -/
def MemoryAllocator.deallocBackend (a : MemoryAllocator) : Backend :=
  if a.use_locked_heap then .lockedHeap else .uefi

/-- Routing of `GlobalAlloc::alloc_zeroed` (alloc.rs lines 42-48). -/
def MemoryAllocator.allocZeroedBackend (a : MemoryAllocator) : Backend :=
  if a.use_locked_heap then .lockedHeap else .uefi

/-- Routing of `GlobalAlloc::realloc` (alloc.rs lines 50-56). -/
def MemoryAllocator.reallocBackend (a : MemoryAllocator) : Backend :=
  if a.use_locked_heap then .lockedHeap else .uefi

/-- `MemoryAllocator::init` (alloc.rs lines 62-76).  `allocatePages n` is
the outcome of `boot::allocate_pages(AnyPages, BOOT_SERVICES_DATA, n)`
(`some ptr` or `none` on failure).  Returns the number of pages requested,
the boolean result, and the allocator state afterwards: on failure the
state is untouched and `false` is returned; on success the span is handed
to the linked-list heap and the mode flag flips. -/
def MemoryAllocator.init (a : MemoryAllocator) (mib : Nat)
    (allocatePages : Nat → Option Nat) : Nat × Bool × MemoryAllocator :=
  let pages := SIZE_1MB * mib / 4096 + 1
  match allocatePages pages with
  | none => (pages, false, a)
  | some _ => (pages, true, ⟨true⟩)

/-- A JSON value as used by the log records (only strings and booleans
occur). -/
inductive JsonValue where
  | str (s : String)
  | bool (b : Bool)
deriving DecidableEq, Repr

/-- The log levels of slog.rs (`slog::Level`). -/
inductive Level where
  | DEBUG
  | INFO
  | WARNING
  | ERROR
  | CRITICAL
deriving DecidableEq, Repr

/-- The level names `get_json_string` writes into the "level" field. -/
def Level.name : Level → String
  | .DEBUG => "DEBUG"
  | .INFO => "INFO"
  | .WARNING => "WARNING"
  | .ERROR => "ERROR"
  | .CRITICAL => "CRITICAL"

/-- The levels of the `log` crate used by tmk_logger.rs. -/
inductive LogLevel where
  | error
  | warn
  | info
  | debug
  | trace
deriving DecidableEq, Repr

/-- `log::Level::as_str()`. -/
def LogLevel.asStr : LogLevel → String
  | .error => "ERROR"
  | .warn => "WARN"
  | .info => "INFO"
  | .debug => "DEBUG"
  | .trace => "TRACE"

/-- The key/value pairs of the JSON object built by `slog::get_json_string`
(slog.rs lines 15-32), in source order.  Note the source writes the literal
key "type:" — with a trailing colon — and emits no "line" field. -/
def get_json_string_fields (message : String) (level : Level) :
    List (String × JsonValue) :=
  [("type:", .str "log"), ("message", .str message), ("level", .str level.name)]

/-- The key/value pairs of the JSON object built by
`slog::get_json_test_assertion_string` (slog.rs lines 34-52), in source
order.  The source again writes the key "type:" with a trailing colon. -/
def get_json_test_assertion_string_fields (message line : String)
    (assert_result : Bool) : List (String × JsonValue) :=
  [("type:", .str "assertion"), ("message", .str message),
   ("level", .str "CRITICAL"), ("line", .str line),
   ("assertion_result", .bool assert_result)]

/-- The key/value pairs of the JSON object serialized by
`tmk_logger::format_log_string_to_json` (tmk_logger.rs lines 17-50): the
serde-serialized `LogEntry` with `log_type` renamed to "type", in field
order. -/
def format_log_string_to_json_fields (message line : String) (lvl : LogLevel) :
    List (String × JsonValue) :=
  [("type", .str "log"), ("level", .str lvl.asStr),
   ("message", .str message), ("line", .str line)]

/-! ## Theorems -/

/-- Claim C1: in `HvTestCtx::exec_handler`, a command is only popped and
invoked when its target VTL equals the worker's current VTL, and when the
front command's target VTL differs from the current VTL the queue is left
unchanged, nothing is executed, and a VTL switch towards the front
command's VTL is issued instead. -/
theorem exec_handler_runs_only_matching_vtl (q : List Cmd) (cur : Vtl) :
    (∀ c, (execHandlerStep q cur).exec = some c → c.vtl = cur) ∧
    (∀ c rest, q = c :: rest → c.vtl ≠ cur →
      execHandlerStep q cur = ⟨q, none, some c.vtl⟩) := by
  constructor
  · intro c h
    match q with
    | [] => simp [execHandlerStep] at h
    | c' :: rest =>
      by_cases hv : c'.vtl = cur
      · simp [execHandlerStep, hv] at h
        subst h
        exact hv
      · simp [execHandlerStep, hv] at h
  · intro c rest hq hv
    subst hq
    simp [execHandlerStep, hv]

/-- Witness for C1 at concrete inputs: a matching front command is executed
only at its own VTL, and a mismatched front command is left in place with a
switch issued. -/
theorem exec_handler_runs_only_matching_vtl_w :
    Cmd.vtl ⟨0, Vtl.Vtl0⟩ = Vtl.Vtl0 ∧
    execHandlerStep [⟨1, Vtl.Vtl1⟩] Vtl.Vtl0
      = ⟨[⟨1, Vtl.Vtl1⟩], none, some Vtl.Vtl1⟩ :=
  ⟨(exec_handler_runs_only_matching_vtl [⟨0, Vtl.Vtl0⟩] Vtl.Vtl0).1
      ⟨0, Vtl.Vtl0⟩ (by decide),
   (exec_handler_runs_only_matching_vtl [⟨1, Vtl.Vtl1⟩] Vtl.Vtl0).2
      ⟨1, Vtl.Vtl1⟩ [] rfl (by decide)⟩

/-- Claim C2, counterexample: a first `HvCall::initialize` on the fresh
handle succeeds, but a second consecutive `initialize` hits
`assert!(!self.initialized)` and panics (modelled as `none`), so
`initialize` is not safe to call twice in a row. -/
theorem initialize_twice_asserts :
    initHvCall ⟨false, Vtl.Vtl0⟩ (.ok 0) = some ⟨true, Vtl.Vtl0⟩ ∧
    ((initHvCall ⟨false, Vtl.Vtl0⟩ (.ok 0)).bind
        fun s => initHvCall s (.ok 0)) = none := by
  constructor
  · rfl
  · rfl

/-- Claim C2, amended: `HvCall::uninitialize` is idempotent (safe to call
twice), after `uninitialize` the handle is uninitialized again and a
re-`initialize` succeeds exactly when a first-ever `initialize` with the
same `VsmVpStatus` outcome would, but a second consecutive `initialize` on
an initialized handle violates its assertion and panics. -/
theorem hvcall_reinit_discipline (s : HvCallState) (r : Except HvError Nat) :
    uninitHvCall (uninitHvCall s) = uninitHvCall s ∧
    (uninitHvCall s).inited = false ∧
    initHvCall (uninitHvCall s) r = initHvCall ⟨false, (uninitHvCall s).vtl⟩ r ∧
    (s.inited = true → initHvCall s r = none) := by
  refine ⟨?_, ?_, ?_, ?_⟩
  · rcases s with ⟨i, v⟩
    cases i <;> simp [uninitHvCall]
  · rcases s with ⟨i, v⟩
    cases i <;> simp [uninitHvCall]
  · rcases s with ⟨i, v⟩
    cases i <;> simp [uninitHvCall, initHvCall]
  · intro h
    simp [initHvCall, h]

/-- Witness for C2's amended theorem at a concrete initialized handle. -/
theorem hvcall_reinit_discipline_w :
    initHvCall ⟨true, Vtl.Vtl1⟩ (.ok 1) = none :=
  (hvcall_reinit_discipline ⟨true, Vtl.Vtl1⟩ (.ok 1)).2.2.2 rfl

/-- Claim C3, counterexample: the record built by `slog::get_json_string`
does not match the claimed wire shape — its type field is keyed "type:"
(with a trailing colon), it has no "type" key, and it carries no "line"
field; the assertion record of `get_json_test_assertion_string` likewise
has no "type" key. -/
theorem log_record_shape_mismatch :
    "type" ∉ (get_json_string_fields "m" Level.INFO).map Prod.fst ∧
    "line" ∉ (get_json_string_fields "m" Level.INFO).map Prod.fst ∧
    ("type:", JsonValue.str "log") ∈ get_json_string_fields "m" Level.INFO ∧
    "type" ∉ (get_json_test_assertion_string_fields "m" "f.rs:1" true).map
        Prod.fst := by
  refine ⟨?_, ?_, ?_, ?_⟩ <;> decide

/-- Claim C3, amended: records emitted through the `log`-crate logger
(`tmk_logger::format_log_string_to_json`) have exactly the fields "type"
with value "log", "level", "message" and "line"; records emitted through
the slog helpers instead key their type field "type:" (trailing colon),
slog log records have exactly the fields "type:" = "log", "message" and
"level" with no "line" field, and slog assertion records have exactly the
fields "type:" = "assertion", "message", "level", "line" and
"assertion_result" carrying the evaluated boolean. -/
theorem logger_record_shapes (message line : String) (lvl : LogLevel)
    (slvl : Level) (result : Bool) :
    (format_log_string_to_json_fields message line lvl).map Prod.fst
      = ["type", "level", "message", "line"] ∧
    ("type", JsonValue.str "log") ∈ format_log_string_to_json_fields
        message line lvl ∧
    (get_json_string_fields message slvl).map Prod.fst
      = ["type:", "message", "level"] ∧
    ("type:", JsonValue.str "log") ∈ get_json_string_fields message slvl ∧
    (get_json_test_assertion_string_fields message line result).map Prod.fst
      = ["type:", "message", "level", "line", "assertion_result"] ∧
    ("type:", JsonValue.str "assertion")
      ∈ get_json_test_assertion_string_fields message line result ∧
    ("assertion_result", JsonValue.bool result)
      ∈ get_json_test_assertion_string_fields message line result := by
  refine ⟨rfl, ?_, rfl, ?_, rfl, ?_, ?_⟩ <;>
    simp [format_log_string_to_json_fields, get_json_string_fields,
      get_json_test_assertion_string_fields]

/-- Gluing two adjacent page-number runs. -/
theorem range'_glue (s m n : Nat) :
    List.range' s m ++ List.range' (s + m) n = List.range' s (m + n) := by
  rw [Nat.add_comm m n]
  exact List.range'_append_1 s m n

/-- Batches issued per page run can always be covered by `endGpn - current`
recursion units, and within that budget `applyGo` issues well-formed
batches, covers the range exactly on success, and stops at the first
failing batch.  This is the workhorse lemma behind claim C4. -/
theorem applyGo_spec (oracle : Nat → Nat) (endGpn : Nat) :
    ∀ fuel current k, endGpn - current ≤ fuel →
      (∀ b ∈ (applyGo oracle endGpn current k fuel).1,
          b.header = vtlProtectionHeader ∧ b.rep_count = b.pages.length ∧
          b.pages.length ≤ MAX_INPUT_ELEMENTS ∧ 1 ≤ b.pages.length) ∧
      ((applyGo oracle endGpn current k fuel).2 = .ok () →
        ((applyGo oracle endGpn current k fuel).1.map RepBatch.pages).flatten
          = List.range' current (endGpn - current)) ∧
      (∀ err, (applyGo oracle endGpn current k fuel).2 = .error err →
        (applyGo oracle endGpn current k fuel).1 ≠ [] ∧
        err.code
          = oracle (k + (applyGo oracle endGpn current k fuel).1.length - 1) ∧
        err.code ≠ 0 ∧
        ∃ n ≤ endGpn - current,
          ((applyGo oracle endGpn current k fuel).1.map RepBatch.pages).flatten
            = List.range' current n) := by
  intro fuel
  induction fuel with
  | zero =>
    intro current k hle
    have h0 : endGpn - current = 0 := Nat.le_zero.mp hle
    refine ⟨?_, ?_, ?_⟩
    · intro b hb
      simp [applyGo] at hb
    · intro _
      simp [applyGo, h0]
    · intro err herr
      simp [applyGo] at herr
  | succ fuel ih =>
    intro current k hle
    by_cases hlt : current < endGpn
    · have hM : (1 : Nat) ≤ MAX_INPUT_ELEMENTS := by decide
      have h1 : 1 ≤ endGpn - current := by omega
      have hcount1 : 1 ≤ min (endGpn - current) MAX_INPUT_ELEMENTS :=
        Nat.le_min.mpr ⟨h1, hM⟩
      have hcountle : min (endGpn - current) MAX_INPUT_ELEMENTS
          ≤ endGpn - current := Nat.min_le_left _ _
      have hcountM : min (endGpn - current) MAX_INPUT_ELEMENTS
          ≤ MAX_INPUT_ELEMENTS := Nat.min_le_right _ _
      by_cases hst : oracle k = 0
      · have hrec : endGpn - (current + min (endGpn - current)
            MAX_INPUT_ELEMENTS) ≤ fuel := by omega
        obtain ⟨ih1, ih2, ih3⟩ := ih (current + min (endGpn - current)
          MAX_INPUT_ELEMENTS) (k + 1) hrec
        have hgo : applyGo oracle endGpn current k (fuel + 1)
            = (⟨vtlProtectionHeader,
                List.range' current (min (endGpn - current) MAX_INPUT_ELEMENTS),
                min (endGpn - current) MAX_INPUT_ELEMENTS⟩
              :: (applyGo oracle endGpn (current + min (endGpn - current)
                    MAX_INPUT_ELEMENTS) (k + 1) fuel).1,
              (applyGo oracle endGpn (current + min (endGpn - current)
                    MAX_INPUT_ELEMENTS) (k + 1) fuel).2) := by
          simp [applyGo, hlt, hst]
        refine ⟨?_, ?_, ?_⟩
        · intro b hb
          simp only [hgo, List.mem_cons] at hb
          rcases hb with hb | hb
          · subst hb
            refine ⟨rfl, ?_, ?_, ?_⟩ <;> simp [List.length_range', hcountM, hcount1]
          · exact ih1 b hb
        · intro hok
          simp only [hgo] at hok ⊢
          simp only [List.map_cons, List.flatten_cons]
          rw [ih2 hok, range'_glue]
          congr 1
          omega
        · intro err herr
          simp only [hgo] at herr ⊢
          obtain ⟨hne, hcode, hnz, n, hn, hflat⟩ := ih3 err herr
          refine ⟨by simp, ?_, hnz, ?_⟩
          · rw [hcode]
            congr 1
            have hlen : 1 ≤ (applyGo oracle endGpn (current +
                min (endGpn - current) MAX_INPUT_ELEMENTS) (k + 1) fuel).1.length := by
              cases hq : (applyGo oracle endGpn (current +
                  min (endGpn - current) MAX_INPUT_ELEMENTS) (k + 1) fuel).1 with
              | nil => exact absurd hq hne
              | cons x xs => simp [hq]
            simp only [List.length_cons]
            omega
          · refine ⟨min (endGpn - current) MAX_INPUT_ELEMENTS + n, by omega, ?_⟩
            simp only [List.map_cons, List.flatten_cons]
            rw [hflat, range'_glue]
      · have hgo : applyGo oracle endGpn current k (fuel + 1)
            = ([⟨vtlProtectionHeader,
                List.range' current (min (endGpn - current) MAX_INPUT_ELEMENTS),
                min (endGpn - current) MAX_INPUT_ELEMENTS⟩],
              .error ⟨oracle k⟩) := by
          simp [applyGo, hlt, hst]
        refine ⟨?_, ?_, ?_⟩
        · intro b hb
          simp only [hgo, List.mem_cons, List.not_mem_nil, or_false] at hb
          subst hb
          refine ⟨rfl, ?_, ?_, ?_⟩ <;> simp [List.length_range', hcountM, hcount1]
        · intro hok
          simp only [hgo] at hok
          simp at hok
        · intro err herr
          simp only [hgo] at herr ⊢
          simp only [Except.error.injEq] at herr
          subst herr
          refine ⟨by simp, by simp, hst, ?_⟩
          exact ⟨min (endGpn - current) MAX_INPUT_ELEMENTS, hcountle, by simp⟩
    · have h0 : endGpn - current = 0 := by omega
      have hgo : applyGo oracle endGpn current k (fuel + 1) = ([], .ok ()) := by
        simp [applyGo, hlt]
      refine ⟨?_, ?_, ?_⟩
      · intro b hb
        simp only [hgo] at hb
        simp at hb
      · intro _
        simp only [hgo]
        simp [h0]
      · intro err herr
        simp only [hgo] at herr
        simp at herr

/-- Claim C4: over any 4-KiB page range, `apply_vtl2_protections` issues
one rep hypercall per batch, every batch carrying the header
`{partition: SELF, map_flags: NONE, target_vtl: CURRENT}`, a rep count
equal to its page count, and at most `(HV_PAGE_SIZE - header size) / 8`
page numbers; when every batch succeeds the issued batches cover the
range's pages exactly once in ascending order, and when a batch fails its
error is returned immediately, the issued pages forming only an initial
segment of the range (no later batch is issued). -/
theorem apply_vtl2_protections_batching (oracle : Nat → Nat)
    (startGpn endGpn : Nat) :
    MAX_INPUT_ELEMENTS = (HV_PAGE_SIZE - MODIFY_VTL_HEADER_SIZE) / 8 ∧
    (∀ b ∈ (apply_vtl2_protections oracle startGpn endGpn).1,
        b.header = vtlProtectionHeader ∧ b.rep_count = b.pages.length ∧
        b.pages.length ≤ MAX_INPUT_ELEMENTS) ∧
    ((apply_vtl2_protections oracle startGpn endGpn).2 = .ok () →
      ((apply_vtl2_protections oracle startGpn endGpn).1.map
          RepBatch.pages).flatten
        = List.range' startGpn (endGpn - startGpn)) ∧
    (∀ err, (apply_vtl2_protections oracle startGpn endGpn).2 = .error err →
      err.code = oracle
        ((apply_vtl2_protections oracle startGpn endGpn).1.length - 1) ∧
      err.code ≠ 0 ∧
      ∃ n ≤ endGpn - startGpn,
        ((apply_vtl2_protections oracle startGpn endGpn).1.map
            RepBatch.pages).flatten
          = List.range' startGpn n) := by
  obtain ⟨h1, h2, h3⟩ := applyGo_spec oracle endGpn (endGpn - startGpn)
    startGpn 0 (Nat.le_refl _)
  refine ⟨rfl, ?_, h2, ?_⟩
  · intro b hb
    obtain ⟨hh, hr, hle, _⟩ := h1 b hb
    exact ⟨hh, hr, hle⟩
  · intro err herr
    obtain ⟨_, hcode, hnz, hpre⟩ := h3 err herr
    exact ⟨by simpa using hcode, hnz, hpre⟩

/-- Witness for C4: a 511-page range with an always-succeeding hypervisor
is covered exactly (two batches), and with a failing hypervisor the error
code comes straight back. -/
theorem apply_vtl2_protections_batching_w :
    ((apply_vtl2_protections (fun _ => 0) 0 511).1.map RepBatch.pages).flatten
      = List.range' 0 (511 - 0) ∧
    HvError.code ⟨7⟩ ≠ 0 :=
  ⟨(apply_vtl2_protections_batching (fun _ => 0) 0 511).2.2.1 (by rfl),
   ((apply_vtl2_protections_batching (fun _ => 7) 0 511).2.2.2 ⟨7⟩
      (by rfl)).2.1⟩

/-- Decomposition invariant of one VP's command queue: at every reachable
state, the executed history followed by the live queue is exactly the
enqueue history.  Enqueues append on the right of both `queue` and `enqs`;
a worker iteration moves the head of `queue` (when its VTL matches) to the
end of `execs` and touches nothing else. -/
theorem busRun_decomp (es : List BusEvent) :
    (busRun es).execs ++ (busRun es).queue = (busRun es).enqs := by
  suffices h : ∀ (l : List BusEvent) (s : BusState),
      s.execs ++ s.queue = s.enqs →
      (l.foldl busStep s).execs ++ (l.foldl busStep s).queue
        = (l.foldl busStep s).enqs by
    exact h es ⟨[], [], []⟩ rfl
  intro l
  induction l with
  | nil => intro s hs; exact hs
  | cons e rest ih =>
    intro s hs
    refine ih (busStep s e) ?_
    cases e with
    | enq c =>
      simp only [busStep]
      rw [← List.append_assoc, hs]
    | work v =>
      simp only [busStep]
      have hq : (execHandlerStep s.queue v).exec.toList
          ++ (execHandlerStep s.queue v).queue = s.queue := by
        cases hqq : s.queue with
        | nil => simp [execHandlerStep]
        | cons c rest' =>
          by_cases hv : c.vtl = v <;> simp [execHandlerStep, hv]
      rw [List.append_assoc, hq, hs]

/-- Claim C6: commands on one VP's queue execute in FIFO order.  For any
event sequence on a VP's queue, if command `a` was enqueued before command
`b` with the same target VTL (earlier first occurrence in the enqueue
history) and `b` has been executed, then `a` was executed too, and earlier.
The result is a consequence of the queue discipline: `push_back` enqueues
and the worker loop only ever removes the front element, so the whole
queue — hence each `(VpIndex, Vtl)` class in it — drains in enqueue
order. -/
theorem commands_execute_in_fifo_order (es : List BusEvent) (a b : Cmd)
    (ha : a ∈ (busRun es).enqs)
    (hvtl : a.vtl = b.vtl)
    (hab : (busRun es).enqs.indexOf a < (busRun es).enqs.indexOf b)
    (hbex : b ∈ (busRun es).execs) :
    a ∈ (busRun es).execs ∧
      (busRun es).execs.indexOf a < (busRun es).execs.indexOf b := by
  have hdec := busRun_decomp es
  have hbeq : (busRun es).enqs.indexOf b = (busRun es).execs.indexOf b := by
    rw [← hdec]
    exact List.indexOf_append_of_mem hbex
  have hblt : (busRun es).execs.indexOf b < (busRun es).execs.length :=
    List.indexOf_lt_length.mpr hbex
  have halt : (busRun es).enqs.indexOf a < (busRun es).execs.length := by
    omega
  have haen : (busRun es).enqs.indexOf a < (busRun es).enqs.length :=
    List.indexOf_lt_length.mpr ha
  have haget : (busRun es).enqs[(busRun es).enqs.indexOf a]? = some a := by
    rw [List.getElem?_eq_getElem haen, List.getElem_indexOf haen]
  have haex : a ∈ (busRun es).execs := by
    obtain ⟨ia, hia⟩ : ∃ n, List.indexOf a (busRun es).enqs = n := ⟨_, rfl⟩
    rw [hia] at haget halt
    rw [← hdec, List.getElem?_append, if_pos halt] at haget
    exact List.getElem?_mem haget
  have haeq : (busRun es).enqs.indexOf a = (busRun es).execs.indexOf a := by
    rw [← hdec]
    exact List.indexOf_append_of_mem haex
  exact ⟨haex, by omega⟩

/-- Witness for C6: two commands for VTL0 enqueued in order on an empty
queue and drained by two worker iterations execute in enqueue order. -/
theorem commands_execute_in_fifo_order_w :
    (⟨0, Vtl.Vtl0⟩ : Cmd) ∈ (busRun [.enq ⟨0, Vtl.Vtl0⟩, .enq ⟨1, Vtl.Vtl0⟩,
        .work Vtl.Vtl0, .work Vtl.Vtl0]).execs ∧
      (busRun [.enq ⟨0, Vtl.Vtl0⟩, .enq ⟨1, Vtl.Vtl0⟩, .work Vtl.Vtl0,
          .work Vtl.Vtl0]).execs.indexOf ⟨0, Vtl.Vtl0⟩
        < (busRun [.enq ⟨0, Vtl.Vtl0⟩, .enq ⟨1, Vtl.Vtl0⟩, .work Vtl.Vtl0,
            .work Vtl.Vtl0]).execs.indexOf ⟨1, Vtl.Vtl0⟩ :=
  commands_execute_in_fifo_order
    [.enq ⟨0, Vtl.Vtl0⟩, .enq ⟨1, Vtl.Vtl0⟩, .work Vtl.Vtl0, .work Vtl.Vtl0]
    ⟨0, Vtl.Vtl0⟩ ⟨1, Vtl.Vtl0⟩ (by decide) rfl (by decide) (by decide)

/-- Claim C5: `enable_vp_vtl` and `enable_partition_vtl` return `Ok(())`
exactly when the hypervisor reports success (status 0) or
`VtlAlreadyEnabled` (status 0x86), and return the hypervisor's error
unchanged for every other status. -/
theorem enable_vtl_idempotent_result (status : Nat) :
    (enable_vp_vtl_result status = .ok () ↔ (status = 0 ∨ status = 0x86)) ∧
    (enable_partition_vtl_result status = .ok ()
      ↔ (status = 0 ∨ status = 0x86)) ∧
    (status ≠ 0 → status ≠ 0x86 →
      enable_vp_vtl_result status = .error ⟨status⟩ ∧
      enable_partition_vtl_result status = .error ⟨status⟩) := by
  refine ⟨?_, ?_, ?_⟩
  · unfold enable_vp_vtl_result hvResult
    split_ifs with h0
    · simp [h0]
    · simp only []
      by_cases h86 : (⟨status⟩ : HvError) = HvError.vtlAlreadyEnabled
      · have : status = 0x86 := congrArg HvError.code h86
        simp [h86, this, h0, HvError.vtlAlreadyEnabled]
      · have hne : status ≠ 0x86 := by
          intro hc
          exact h86 (by simp [HvError.vtlAlreadyEnabled, hc])
        simp [h86, h0, hne]
  · unfold enable_partition_vtl_result hvResult
    split_ifs with h0
    · simp [h0]
    · simp only []
      by_cases h86 : (⟨status⟩ : HvError) = HvError.vtlAlreadyEnabled
      · have : status = 0x86 := congrArg HvError.code h86
        simp [h86, this, h0, HvError.vtlAlreadyEnabled]
      · have hne : status ≠ 0x86 := by
          intro hc
          exact h86 (by simp [HvError.vtlAlreadyEnabled, hc])
        simp [h86, h0, hne]
  · intro h0 h86
    have hne : (⟨status⟩ : HvError) ≠ HvError.vtlAlreadyEnabled := by
      intro hc
      exact h86 (congrArg HvError.code hc)
    constructor <;>
      simp [enable_vp_vtl_result, enable_partition_vtl_result, hvResult,
        h0, hne]

/-- Witness for C5 at concrete statuses: 0x86 (`VtlAlreadyEnabled`) maps to
success and status 5 maps to the unchanged error, for both wrappers. -/
theorem enable_vtl_idempotent_result_w :
    enable_vp_vtl_result 0x86 = .ok () ∧
    enable_partition_vtl_result 0x86 = .ok () ∧
    enable_vp_vtl_result 5 = .error ⟨5⟩ ∧
    enable_partition_vtl_result 5 = .error ⟨5⟩ :=
  ⟨(enable_vtl_idempotent_result 0x86).1.mpr (Or.inr rfl),
   (enable_vtl_idempotent_result 0x86).2.1.mpr (Or.inr rfl),
   ((enable_vtl_idempotent_result 5).2.2 (by decide) (by decide)).1,
   ((enable_vtl_idempotent_result 5).2.2 (by decide) (by decide)).2⟩

/-- Claim C7: `HvCall::low_vtl` (the `vtl_return` path) zeroes every byte
of the shared hypercall input page before issuing the `HvCallVtlReturn`
hypercall, for every prior content of the page, and the page keeps its
size. -/
theorem vtl_return_zeroes_input_page (page : List Nat) :
    (low_vtl_input_page page).length = page.length ∧
    ∀ b ∈ low_vtl_input_page page, b = 0 := by
  constructor
  · simp [low_vtl_input_page, fillZero]
  · intro b hb
    simp [low_vtl_input_page, fillZero] at hb
    exact hb.2

/-- Witness for C7 on a concrete nonzero page content. -/
theorem vtl_return_zeroes_input_page_w :
    (low_vtl_input_page [1, 2, 3]).length = [1, 2, 3].length ∧
    (0 : Nat) = 0 :=
  ⟨(vtl_return_zeroes_input_page [1, 2, 3]).1,
   (vtl_return_zeroes_input_page [1, 2, 3]).2 0 (by decide)⟩

/-- Claim C8: `MemoryAllocator::init(mib)` requests exactly
`mib * 1 MiB / 4 KiB + 1` pages of BootServicesData memory; if the page
allocation fails it returns `false` and leaves the allocator unchanged (so
an allocator still in UEFI mode keeps routing all four entry points to the
UEFI boot-services allocator); if it succeeds it returns `true`, flips the
mode flag, and every subsequent alloc/dealloc/alloc_zeroed/realloc call
routes to the linked-list heap. -/
theorem allocator_init_mode_switch (a : MemoryAllocator) (mib : Nat)
    (oracle : Nat → Option Nat) :
    (a.init mib oracle).1 = SIZE_1MB * mib / 4096 + 1 ∧
    (oracle (SIZE_1MB * mib / 4096 + 1) = none →
      (a.init mib oracle).2.1 = false ∧ (a.init mib oracle).2.2 = a) ∧
    (a.use_locked_heap = false →
      a.allocBackend = .uefi ∧ a.deallocBackend = .uefi ∧
      a.allocZeroedBackend = .uefi ∧ a.reallocBackend = .uefi) ∧
    (∀ p, oracle (SIZE_1MB * mib / 4096 + 1) = some p →
      (a.init mib oracle).2.1 = true ∧
      (a.init mib oracle).2.2.allocBackend = .lockedHeap ∧
      (a.init mib oracle).2.2.deallocBackend = .lockedHeap ∧
      (a.init mib oracle).2.2.allocZeroedBackend = .lockedHeap ∧
      (a.init mib oracle).2.2.reallocBackend = .lockedHeap) := by
  refine ⟨?_, ?_, ?_, ?_⟩
  · unfold MemoryAllocator.init
    cases h : oracle (SIZE_1MB * mib / 4096 + 1) <;> simp [h]
  · intro h
    unfold MemoryAllocator.init
    simp [h]
  · intro h
    simp [MemoryAllocator.allocBackend, MemoryAllocator.deallocBackend,
      MemoryAllocator.allocZeroedBackend, MemoryAllocator.reallocBackend, h]
  · intro p h
    unfold MemoryAllocator.init
    simp [h, MemoryAllocator.allocBackend, MemoryAllocator.deallocBackend,
      MemoryAllocator.allocZeroedBackend, MemoryAllocator.reallocBackend]

/-- Witness for C8: with 2 MiB requested, exactly 513 pages are requested;
a failing page allocation leaves the allocator in UEFI mode and a
succeeding one flips it to the linked-list heap. -/
theorem allocator_init_mode_switch_w :
    (MemoryAllocator.init ⟨false⟩ 2 (fun _ => none)).1
      = SIZE_1MB * 2 / 4096 + 1 ∧
    (MemoryAllocator.init ⟨false⟩ 2 (fun _ => none)).2.1 = false ∧
    MemoryAllocator.allocBackend ⟨false⟩ = .uefi ∧
    (MemoryAllocator.init ⟨false⟩ 2 (fun _ => some 0)).2.1 = true ∧
    (MemoryAllocator.init ⟨false⟩ 2 (fun _ => some 0)).2.2.allocBackend
      = .lockedHeap :=
  ⟨(allocator_init_mode_switch ⟨false⟩ 2 (fun _ => none)).1,
   ((allocator_init_mode_switch ⟨false⟩ 2 (fun _ => none)).2.1 rfl).1,
   ((allocator_init_mode_switch ⟨false⟩ 2 (fun _ => none)).2.2.1 rfl).1,
   ((allocator_init_mode_switch ⟨false⟩ 2 (fun _ => some 0)).2.2.2 0 rfl).1,
   ((allocator_init_mode_switch ⟨false⟩ 2 (fun _ => some 0)).2.2.2 0
       rfl).2.1⟩

/-- Claim C9: `Channel::send` fails with "Buffer is full" whenever the
buffer already holds at least `capacity` items, while
`Channel::send_priority` performs no capacity check: on every channel
state, a full one included, it inserts the item at the front and returns
`Ok`, so on a buffer holding exactly `capacity` items the queue length
grows beyond the declared capacity. -/
theorem send_priority_ignores_capacity (c : Channel Nat) (x : Nat) :
    (c.capacity ≤ c.buffer.length → c.send x = .error "Buffer is full") ∧
    c.send_priority x = .ok ⟨x :: c.buffer, c.capacity⟩ ∧
    (c.buffer.length = c.capacity →
      ∃ c', c.send_priority x = .ok c' ∧
        c'.capacity < c'.buffer.length) := by
  refine ⟨?_, rfl, ?_⟩
  · intro h
    simp [Channel.send, h]
  · intro h
    exact ⟨⟨x :: c.buffer, c.capacity⟩, rfl, by simp [h]⟩

/-- Witness for C9 on a channel of capacity 1 already holding one item:
`send` fails and `send_priority` pushes the queue past its capacity. -/
theorem send_priority_ignores_capacity_w :
    Channel.send ⟨[5], 1⟩ 7 = .error "Buffer is full" ∧
    ∃ c', Channel.send_priority (⟨[5], 1⟩ : Channel Nat) 7 = .ok c' ∧
      c'.capacity < c'.buffer.length :=
  ⟨(send_priority_ignores_capacity ⟨[5], 1⟩ 7).1 (by decide),
   (send_priority_ignores_capacity ⟨[5], 1⟩ 7).2.2 rfl⟩

/-- Claim C10: when the `VsmVpStatus` register read during
`HvCall::initialize` returns an error, `initialize` still completes
successfully (`map_or` swallows the error), caches `Vtl0` as the current
VTL, and `vtl()` subsequently reports `Vtl0`. -/
theorem init_vsm_status_error_defaults_vtl0 (s : HvCallState) (e : HvError)
    (h : s.inited = false) :
    initHvCall s (.error e) = some ⟨true, Vtl.Vtl0⟩ ∧
    vtlOf ⟨true, Vtl.Vtl0⟩ = some Vtl.Vtl0 := by
  constructor
  · simp [initHvCall, h]
  · rfl

/-- Witness for C10 on a fresh handle with a concrete register-read
error. -/
theorem init_vsm_status_error_defaults_vtl0_w :
    initHvCall ⟨false, Vtl.Vtl1⟩ (.error ⟨3⟩) = some ⟨true, Vtl.Vtl0⟩ :=
  (init_vsm_status_error_defaults_vtl0 ⟨false, Vtl.Vtl1⟩ ⟨3⟩ rfl).1

end OpenTMK
